import Mathlib

/-!
Shallow embedding of `git-fast-worktree` (src/main.go), a tool that creates
git worktrees using APFS copy-on-write cloning.

The program is a single cobra command `add`.  Its `RunE` body:
1. resolves the source as the git repo root of the current directory
   (`gitToplevel`, a `git rev-parse --show-toplevel` subprocess),
2. resolves the destination path (`filepath.Abs(args[0])`),
3. rejects a pre-existing destination (`os.Stat`),
4. rejects setting both `-b` and `-B`,
5. phase 1: runs `git worktree add --no-checkout ...`,
6. phase 2: reads the source directory's top-level entries, skipping `.git`,
7. phase 3: clonefiles each entry in a goroutine, counting successes in an
   atomic counter and storing failures in a `sync.Map`,
8. phase 4: runs `git reset --no-refresh` in the destination,
9. prints each clone error, the total time and the worktree path, and
   returns an error iff any clone failed.
`main` exits with status 1 when `RunE` returned an error, 0 otherwise.

External effects (subprocess exit statuses, directory contents, clonefile
results) are supplied by an `Env` oracle.  Goroutine scheduling
nondeterminism is modelled by an `order` parameter: the completion order of
the clone tasks, an arbitrary permutation of the launched task list.
-/

namespace GitFastWorktree

/-- The `add` command's inputs: positional args `<path> [<commit-ish>]` and
the flags `-b` (`--branch`), `-B` (`--force-branch`), `--no-track`.  As in the Go
source, an absent commit-ish or branch flag is the empty string. -/
structure Req where
  pathArg : String
  commitish : String
  branchCreate : String
  branchReset : String
  noTrack : Bool
deriving Repr, DecidableEq

/-- Oracle for the external world: results of the subprocess invocations,
of `os.Stat` on the destination, of `os.ReadDir` on the source, and of the
`clonefile` syscall per entry name (`none` = success, `some msg` = the
error).  `dstAbs` is the result of `filepath.Abs(args[0])` (which only
fails if the working directory is unobtainable; modelled as total). -/
structure Env where
  gitToplevel : Option String
  dstAbs : String
  dstExists : Bool
  worktreeAddOk : Bool
  readDir : Option (List String)
  clonefile : String → Option String
  resetOk : Bool

/-- Observable events of one run: `git` subprocess invocations (with their
argument vectors), `clonefile` syscalls, and the user-visible report lines
that the claims mention (per-entry clone diagnostics, the total line, the
worktree path line). -/
inductive Event where
  | subprocess (args : List String)
  | clonefileCall (name srcPath dstPath : String)
  | printErrLine (name msg : String)
  | printTotal
  | printWorktree (dst : String)
deriving Repr, DecidableEq

/-- The error kinds `RunE` can return, one per `return fmt.Errorf` site. -/
inductive ErrKind where
  | notARepo
  | destExists
  | conflictingFlags
  | worktreeAddFailed
  | readDirFailed
  | resetFailed
  | cloneErrors (n : Nat)
deriving Repr, DecidableEq

/-- Result of one run of `addCmd.RunE`: the event trace, the final value of
the `cloned` atomic counter, the content of the `cloneErrors` map (as an
association list in task-completion order), and the returned error. -/
structure RunResult where
  trace : List Event
  clonedCount : Nat
  failures : List (String × String)
  err : Option ErrKind
deriving Repr, DecidableEq

/-- The argument vector built for `git worktree add` (src/main.go lines
65-79): `--no-checkout`, then exactly one of `-b`/`-B`/`--detach`, then
optionally `--no-track`, the destination and the optional commit-ish. -/
def worktreeArgs (req : Req) (src dst : String) : List String :=
  ((["-C", src, "worktree", "add", "--no-checkout"]
    ++ (if req.branchCreate ≠ "" then ["-b", req.branchCreate]
        else if req.branchReset ≠ "" then ["-B", req.branchReset]
        else ["--detach"])
    ++ (if req.noTrack then ["--no-track"] else []))
    ++ [dst])
    ++ (if req.commitish ≠ "" then [req.commitish] else [])

/-- The entries submitted to the clone fan-out: every top-level entry of
the source except `.git` (src/main.go lines 94-100). -/
def toClone (entries : List String) : List String :=
  entries.filter (fun e => e != ".git")

/-- The completion order of the fan-out goroutines.  The scheduler's choice
`order` is honoured whenever it is a permutation of the launched tasks;
otherwise the launch order stands.  This makes the nondeterminism a total
function of the `order` parameter while guaranteeing that exactly the
launched tasks complete, each once. -/
def completionOrder (names order : List String) : List String :=
  if order.Perm names then order else names

/-- Final value of the `cloned` atomic counter: one `Add(1)` per task whose
clonefile call succeeded (src/main.go line 117). -/
def clonedOf (env : Env) (order : List String) : Nat :=
  (order.filter (fun n => (env.clonefile n).isNone)).length

/-- Final content of the `cloneErrors` sync.Map: one `Store(name, err)` per
task whose clonefile call failed (src/main.go line 115), listed in task
completion order. -/
def failuresOf (env : Env) (order : List String) : List (String × String) :=
  order.filterMap (fun n => (env.clonefile n).map (fun m => (n, m)))

/-- One run of `addCmd.RunE` (src/main.go lines 35-150) followed by
`main`'s error handling, as a function of the request, the environment
oracle and the scheduler's task completion order. -/
def run (req : Req) (env : Env) (order : List String) : RunResult :=
  let tr0 := [Event.subprocess ["rev-parse", "--show-toplevel"]]
  match env.gitToplevel with
  | none => ⟨tr0, 0, [], some .notARepo⟩
  | some src =>
    let dst := env.dstAbs
    if env.dstExists then ⟨tr0, 0, [], some .destExists⟩
    else if req.branchCreate ≠ "" ∧ req.branchReset ≠ "" then
      ⟨tr0, 0, [], some .conflictingFlags⟩
    else
      let tr1 := tr0 ++ [Event.subprocess (worktreeArgs req src dst)]
      if env.worktreeAddOk then
        match env.readDir with
        | none => ⟨tr1, 0, [], some .readDirFailed⟩
        | some entries =>
          let comp := completionOrder (toClone entries) order
          let tr2 := tr1 ++ comp.map (fun n =>
            Event.clonefileCall n (src ++ "/" ++ n) (dst ++ "/" ++ n))
          let cloned := clonedOf env comp
          let fails := failuresOf env comp
          let tr3 := tr2 ++ [Event.subprocess ["-C", dst, "reset", "--no-refresh"]]
          if env.resetOk then
            let tr4 := tr3 ++ fails.map (fun p => Event.printErrLine p.1 p.2)
            let tr5 := tr4 ++ [Event.printTotal, Event.printWorktree dst]
            if fails.length > 0 then ⟨tr5, cloned, fails, some (.cloneErrors fails.length)⟩
            else ⟨tr5, cloned, fails, none⟩
          else ⟨tr3, cloned, fails, some .resetFailed⟩
      else ⟨tr1, 0, [], some .worktreeAddFailed⟩

/-- Process exit status (src/main.go lines 159-164): 1 when `RunE`
returned an error, 0 otherwise. -/
def exitStatus (req : Req) (env : Env) (order : List String) : Nat :=
  match (run req env order).err with
  | none => 0
  | some _ => 1

/-- The entry names of the clonefile calls appearing in a trace. -/
def cloneCalls (tr : List Event) : List String :=
  tr.filterMap (fun ev => match ev with
    | .clonefileCall n _ _ => some n
    | _ => none)

/-- Full success: every phase succeeded and no clone failed.  This is the
conjunction of all the conditions under which `RunE` reaches its final
`return nil`. -/
def fullSuccess (req : Req) (env : Env) : Prop :=
  env.gitToplevel.isSome ∧ env.dstExists = false ∧
  ¬(req.branchCreate ≠ "" ∧ req.branchReset ≠ "") ∧
  env.worktreeAddOk = true ∧ env.readDir.isSome ∧
  (∀ n ∈ toClone (env.readDir.getD []), env.clonefile n = none) ∧
  env.resetOk = true

instance (req : Req) (env : Env) : Decidable (fullSuccess req env) := by
  unfold fullSuccess; infer_instance

/-! ### Basic lemmas about the fan-out aggregation -/

/-- The completion order is always a permutation of the launched tasks. -/
theorem completionOrder_perm (names order : List String) :
    (completionOrder names order).Perm names := by
  unfold completionOrder
  split
  · assumption
  · exact List.Perm.refl _

/-- Two completion orders of the same task list are permutations of each
other. -/
theorem completionOrder_congr (names o1 o2 : List String) :
    (completionOrder names o1).Perm (completionOrder names o2) :=
  (completionOrder_perm names o1).trans (completionOrder_perm names o2).symm

/-- Every task bumps the counter or records a failure, never both: the
counter plus the number of recorded failures equals the number of tasks. -/
theorem clonedOf_add_failures (env : Env) (l : List String) :
    clonedOf env l + (failuresOf env l).length = l.length := by
  induction l with
  | nil => rfl
  | cons a t ih =>
    unfold clonedOf failuresOf at *
    cases h : env.clonefile a <;>
      simp [List.filter_cons, List.filterMap_cons, h] <;> omega

/-- The keys of the failure map are exactly the tasks whose clonefile call
failed, in completion order. -/
theorem failuresOf_keys (env : Env) (l : List String) :
    (failuresOf env l).map Prod.fst = l.filter (fun n => (env.clonefile n).isSome) := by
  induction l with
  | nil => rfl
  | cons a t ih =>
    unfold failuresOf at *
    cases h : env.clonefile a <;> simp [List.filterMap_cons, List.filter_cons, h, ih]

/-- The failure map is empty iff every task's clonefile call succeeded. -/
theorem failuresOf_eq_nil_iff (env : Env) (l : List String) :
    failuresOf env l = [] ↔ ∀ n ∈ l, env.clonefile n = none := by
  unfold failuresOf
  simp [List.filterMap_eq_nil_iff]

/-- `filterMap` over a duplicate-free list whose only hit is `e`. -/
theorem filterMap_eq_single {α β : Type} (f : α → Option β) (l : List α) (e : α) (b : β)
    (hnd : l.Nodup) (he : e ∈ l) (hf : f e = some b)
    (ho : ∀ x ∈ l, x ≠ e → f x = none) :
    l.filterMap f = [b] := by
  induction l with
  | nil => cases he
  | cons a t ih =>
    rcases List.mem_cons.mp he with rfl | het
    · have ht : t.filterMap f = [] := by
        refine List.filterMap_eq_nil_iff.mpr (fun x hx => ?_)
        refine ho x (List.mem_cons_of_mem _ hx) (fun hxe => ?_)
        exact (List.nodup_cons.mp hnd).1 (hxe ▸ hx)
      simp [List.filterMap_cons, hf, ht]
    · have hae : a ≠ e := fun h => (List.nodup_cons.mp hnd).1 (h ▸ het)
      have ha : f a = none := ho a (List.mem_cons_self a t) hae
      have := ih (List.nodup_cons.mp hnd).2 het
        (fun x hx hxe => ho x (List.mem_cons_of_mem _ hx) hxe)
      simp [List.filterMap_cons, ha, this]

/-! ### Projections of `run` in the branch that reaches the fan-out -/

/-- When every phase up to the fan-out succeeds, the reported cloned count
is the fan-out counter over the completion order. -/
theorem run_clonedCount_of_fanout (req : Req) (env : Env) (order : List String)
    (src : String) (entries : List String)
    (htop : env.gitToplevel = some src) (hdst : env.dstExists = false)
    (hfl : ¬(req.branchCreate ≠ "" ∧ req.branchReset ≠ ""))
    (hwt : env.worktreeAddOk = true) (hrd : env.readDir = some entries) :
    (run req env order).clonedCount =
      clonedOf env (completionOrder (toClone entries) order) := by
  simp only [run, htop, hrd]
  simp only [hdst, hwt, Bool.false_eq_true, if_false, if_neg hfl, if_true]
  split
  · split <;> rfl
  · rfl

/-- When every phase up to the fan-out succeeds, the reported failures are
the fan-out failure map over the completion order. -/
theorem run_failures_of_fanout (req : Req) (env : Env) (order : List String)
    (src : String) (entries : List String)
    (htop : env.gitToplevel = some src) (hdst : env.dstExists = false)
    (hfl : ¬(req.branchCreate ≠ "" ∧ req.branchReset ≠ ""))
    (hwt : env.worktreeAddOk = true) (hrd : env.readDir = some entries) :
    (run req env order).failures =
      failuresOf env (completionOrder (toClone entries) order) := by
  simp only [run, htop, hrd]
  simp only [hdst, hwt, Bool.false_eq_true, if_false, if_neg hfl, if_true]
  split
  · split <;> rfl
  · rfl

/-- When every phase up to the fan-out succeeds, the returned error is
determined by whether the failure map is empty. -/
theorem run_err_of_fanout (req : Req) (env : Env) (order : List String)
    (src : String) (entries : List String)
    (htop : env.gitToplevel = some src) (hdst : env.dstExists = false)
    (hfl : ¬(req.branchCreate ≠ "" ∧ req.branchReset ≠ ""))
    (hwt : env.worktreeAddOk = true) (hrd : env.readDir = some entries)
    (hres : env.resetOk = true) :
    (run req env order).err =
      (if (failuresOf env (completionOrder (toClone entries) order)).length > 0
       then some (ErrKind.cloneErrors
         (failuresOf env (completionOrder (toClone entries) order)).length)
       else none) := by
  simp only [run, htop, hrd]
  simp only [hdst, hwt, hres, Bool.false_eq_true, if_false, if_neg hfl, if_true]
  split <;> rfl

/-- When every phase including the index reset succeeds, the full event
trace of the run. -/
theorem run_trace_of_reset_ok (req : Req) (env : Env) (order : List String)
    (src : String) (entries : List String)
    (htop : env.gitToplevel = some src) (hdst : env.dstExists = false)
    (hfl : ¬(req.branchCreate ≠ "" ∧ req.branchReset ≠ ""))
    (hwt : env.worktreeAddOk = true) (hrd : env.readDir = some entries)
    (hres : env.resetOk = true) :
    (run req env order).trace =
      [Event.subprocess ["rev-parse", "--show-toplevel"],
       Event.subprocess (worktreeArgs req src env.dstAbs)]
      ++ (completionOrder (toClone entries) order).map (fun n =>
           Event.clonefileCall n (src ++ "/" ++ n) (env.dstAbs ++ "/" ++ n))
      ++ [Event.subprocess ["-C", env.dstAbs, "reset", "--no-refresh"]]
      ++ (failuresOf env (completionOrder (toClone entries) order)).map
           (fun p => Event.printErrLine p.1 p.2)
      ++ [Event.printTotal, Event.printWorktree env.dstAbs] := by
  simp only [run, htop, hrd]
  simp only [hdst, hwt, hres, Bool.false_eq_true, if_false, if_neg hfl, if_true]
  split <;> simp

/-- `cloneCalls` distributes over trace concatenation. -/
theorem cloneCalls_append (a b : List Event) :
    cloneCalls (a ++ b) = cloneCalls a ++ cloneCalls b :=
  List.filterMap_append a b _

/-- A lone subprocess event contributes no clonefile call. -/
theorem cloneCalls_single_subprocess (args : List String) :
    cloneCalls [Event.subprocess args] = [] := rfl

/-- The final report lines contribute no clonefile call. -/
theorem cloneCalls_report (d : String) :
    cloneCalls [Event.printTotal, Event.printWorktree d] = [] := rfl

/-- The fan-out's clonefile events contribute exactly the task names. -/
theorem cloneCalls_map_clonefileCall (l : List String) (f g : String → String) :
    cloneCalls (l.map (fun n => Event.clonefileCall n (f n) (g n))) = l := by
  induction l with
  | nil => rfl
  | cons a t ih =>
    simp only [List.map_cons]
    unfold cloneCalls at *
    simp only [List.filterMap_cons]
    simpa using ih

/-- The per-entry diagnostic lines contribute no clonefile call. -/
theorem cloneCalls_map_printErrLine (l : List (String × String)) :
    cloneCalls (l.map (fun p => Event.printErrLine p.1 p.2)) = [] := by
  induction l with
  | nil => rfl
  | cons a t ih =>
    simp only [List.map_cons]
    unfold cloneCalls at *
    simp only [List.filterMap_cons]
    simp [ih]

/-- When every phase up to the fan-out succeeds, the clonefile calls in
the trace are exactly the completed tasks, in completion order (whatever
the index reset's outcome). -/
theorem run_cloneCalls_of_fanout (req : Req) (env : Env) (order : List String)
    (src : String) (entries : List String)
    (htop : env.gitToplevel = some src) (hdst : env.dstExists = false)
    (hfl : ¬(req.branchCreate ≠ "" ∧ req.branchReset ≠ ""))
    (hwt : env.worktreeAddOk = true) (hrd : env.readDir = some entries) :
    cloneCalls (run req env order).trace = completionOrder (toClone entries) order := by
  simp only [run, htop, hrd]
  simp only [hdst, hwt, Bool.false_eq_true, if_false, if_neg hfl, if_true]
  split
  · split <;>
      simp only [cloneCalls_append, cloneCalls_single_subprocess,
        cloneCalls_map_clonefileCall, cloneCalls_map_printErrLine,
        cloneCalls_report, List.append_nil, List.nil_append]
  · simp only [cloneCalls_append, cloneCalls_single_subprocess,
      cloneCalls_map_clonefileCall, List.append_nil, List.nil_append]

/-! ### The claims -/

/-- C1: for a source tree with `N` top-level entries, none named `.git`,
whose clonefile calls all succeed, the run that reaches the fan-out
reports `clonedCount = N` and an empty failures map, whatever the task
completion order. -/
theorem c1_all_clones_succeed (req : Req) (env : Env) (order : List String)
    (src : String) (entries : List String)
    (htop : env.gitToplevel = some src) (hdst : env.dstExists = false)
    (hfl : ¬(req.branchCreate ≠ "" ∧ req.branchReset ≠ ""))
    (hwt : env.worktreeAddOk = true) (hrd : env.readDir = some entries)
    (hng : ∀ e ∈ entries, e ≠ ".git")
    (hok : ∀ e ∈ entries, env.clonefile e = none) :
    (run req env order).clonedCount = entries.length ∧
    (run req env order).failures = [] := by
  have htc : toClone entries = entries := by
    unfold toClone
    rw [List.filter_eq_self]
    intro a ha
    simpa using hng a ha
  have hperm : (completionOrder (toClone entries) order).Perm entries := by
    rw [htc]
    exact completionOrder_perm entries order
  constructor
  · rw [run_clonedCount_of_fanout req env order src entries htop hdst hfl hwt hrd]
    unfold clonedOf
    have : (completionOrder (toClone entries) order).filter
        (fun n => (env.clonefile n).isNone) = completionOrder (toClone entries) order := by
      rw [List.filter_eq_self]
      intro a ha
      simp [hok a (hperm.mem_iff.mp ha)]
    rw [this, hperm.length_eq]
  · rw [run_failures_of_fanout req env order src entries htop hdst hfl hwt hrd]
    exact (failuresOf_eq_nil_iff env _).mpr
      (fun n hn => hok n (hperm.mem_iff.mp hn))

/-- C1 witness: a concrete three-entry tree with an always-succeeding
clone primitive, fan-out completing in reversed order. -/
theorem c1_all_clones_succeed_witness :
    (run ⟨"/tmp/w", "", "", "", false⟩
         ⟨some "/repo", "/tmp/w", false, true, some ["a", "b", "c"], fun _ => none, true⟩
         ["c", "b", "a"]).clonedCount = 3 ∧
    (run ⟨"/tmp/w", "", "", "", false⟩
         ⟨some "/repo", "/tmp/w", false, true, some ["a", "b", "c"], fun _ => none, true⟩
         ["c", "b", "a"]).failures = [] :=
  c1_all_clones_succeed _ _ _ "/repo" ["a", "b", "c"] rfl rfl (by decide) rfl rfl
    (by decide) (fun _ _ => rfl)

/-- C2: with exactly one failing entry `e` among the non-metadata entries,
the final failures map is exactly `[(e, reason)]`, the cloned count is
`N - 1` where `N` counts the non-metadata entries, and the index-reset
subprocess still runs. -/
theorem c2_single_clone_failure (req : Req) (env : Env) (order : List String)
    (src : String) (entries : List String) (e reason : String)
    (htop : env.gitToplevel = some src) (hdst : env.dstExists = false)
    (hfl : ¬(req.branchCreate ≠ "" ∧ req.branchReset ≠ ""))
    (hwt : env.worktreeAddOk = true) (hrd : env.readDir = some entries)
    (hres : env.resetOk = true)
    (hnd : entries.Nodup) (he : e ∈ entries) (heg : e ≠ ".git")
    (hfail : env.clonefile e = some reason)
    (hok : ∀ x ∈ entries, x ≠ e → env.clonefile x = none) :
    (run req env order).failures = [(e, reason)] ∧
    (run req env order).clonedCount = (toClone entries).length - 1 ∧
    Event.subprocess ["-C", env.dstAbs, "reset", "--no-refresh"]
      ∈ (run req env order).trace := by
  have hperm := completionOrder_perm (toClone entries) order
  have hmem : e ∈ completionOrder (toClone entries) order := by
    rw [hperm.mem_iff]
    unfold toClone
    rw [List.mem_filter]
    exact ⟨he, by simp [heg]⟩
  have hcnd : (completionOrder (toClone entries) order).Nodup := by
    rw [hperm.nodup_iff]
    exact hnd.filter _
  have hfails : failuresOf env (completionOrder (toClone entries) order) = [(e, reason)] := by
    unfold failuresOf
    refine filterMap_eq_single _ _ e (e, reason) hcnd hmem (by rw [hfail]; rfl) ?_
    intro x hx hxe
    have hxent : x ∈ entries := by
      have := hperm.mem_iff.mp hx
      exact (List.mem_filter.mp this).1
    rw [hok x hxent hxe]
    rfl
  refine ⟨?_, ?_, ?_⟩
  · rw [run_failures_of_fanout req env order src entries htop hdst hfl hwt hrd, hfails]
  · rw [run_clonedCount_of_fanout req env order src entries htop hdst hfl hwt hrd]
    have hsum := clonedOf_add_failures env (completionOrder (toClone entries) order)
    rw [hfails] at hsum
    have hlen := hperm.length_eq
    simp at hsum
    omega
  · rw [run_trace_of_reset_ok req env order src entries htop hdst hfl hwt hrd hres]
    simp

/-- C2 witness: a concrete tree `["a", "b", ".git"]` where only `b`'s
clonefile call fails. -/
theorem c2_single_clone_failure_witness :
    (run ⟨"/tmp/w", "", "", "", false⟩
         ⟨some "/repo", "/tmp/w", false, true, some ["a", "b", ".git"],
          fun n => if n == "b" then some "permission denied" else none, true⟩
         ["b", "a"]).failures = [("b", "permission denied")] ∧
    (run ⟨"/tmp/w", "", "", "", false⟩
         ⟨some "/repo", "/tmp/w", false, true, some ["a", "b", ".git"],
          fun n => if n == "b" then some "permission denied" else none, true⟩
         ["b", "a"]).clonedCount = (toClone ["a", "b", ".git"]).length - 1 ∧
    Event.subprocess ["-C", "/tmp/w", "reset", "--no-refresh"]
      ∈ (run ⟨"/tmp/w", "", "", "", false⟩
             ⟨some "/repo", "/tmp/w", false, true, some ["a", "b", ".git"],
              fun n => if n == "b" then some "permission denied" else none, true⟩
             ["b", "a"]).trace :=
  c2_single_clone_failure _ _ _ "/repo" ["a", "b", ".git"] "b" "permission denied"
    rfl rfl (by decide) rfl rfl rfl (by decide) (by decide) (by decide) rfl
    (by decide)

/-- C3 counterexample: a run whose destination pre-exists does fail with
the destination-already-exists error, but only after the `git rev-parse
--show-toplevel` subprocess has been invoked — the claim's "before any
subprocess invocation" is false on the code. -/
theorem c3_counterexample :
    (run ⟨"/tmp/w", "", "", "", false⟩
         ⟨some "/repo", "/tmp/w", true, true, some ["a"], fun _ => none, true⟩
         []).err = some ErrKind.destExists ∧
    Event.subprocess ["rev-parse", "--show-toplevel"]
      ∈ (run ⟨"/tmp/w", "", "", "", false⟩
             ⟨some "/repo", "/tmp/w", true, true, some ["a"], fun _ => none, true⟩
             []).trace := by
  decide

/-- C3 amended: when the root lookup succeeds and the destination
pre-exists, the run fails with the destination-already-exists error
before any clone call and before any further subprocess: its whole trace
is the single locate-root invocation. -/
theorem c3_dest_exists_preflight (req : Req) (env : Env) (order : List String)
    (src : String)
    (htop : env.gitToplevel = some src) (hdst : env.dstExists = true) :
    (run req env order).err = some ErrKind.destExists ∧
    (run req env order).trace = [Event.subprocess ["rev-parse", "--show-toplevel"]] := by
  simp only [run, htop]
  simp [hdst]

/-- C3 witness: the amended statement at a concrete pre-existing
destination. -/
theorem c3_dest_exists_preflight_witness :
    (run ⟨"/tmp/w", "", "", "", false⟩
         ⟨some "/repo", "/tmp/w", true, true, some ["a"], fun _ => none, true⟩
         ["a"]).err = some ErrKind.destExists ∧
    (run ⟨"/tmp/w", "", "", "", false⟩
         ⟨some "/repo", "/tmp/w", true, true, some ["a"], fun _ => none, true⟩
         ["a"]).trace = [Event.subprocess ["rev-parse", "--show-toplevel"]] :=
  c3_dest_exists_preflight _ _ _ "/repo" rfl rfl

/-- C4 counterexample: a run with both branch flags set does fail with the
conflicting-branch-flags error, but the version-control Gateway has
already been invoked once (its locate-root operation, `git rev-parse
--show-toplevel`) — the claim's "before any invocation of the
version-control Gateway" is false on the code. -/
theorem c4_counterexample :
    (run ⟨"/tmp/w", "", "feat", "fix2", false⟩
         ⟨some "/repo", "/tmp/w", false, true, some ["a"], fun _ => none, true⟩
         []).err = some ErrKind.conflictingFlags ∧
    Event.subprocess ["rev-parse", "--show-toplevel"]
      ∈ (run ⟨"/tmp/w", "", "feat", "fix2", false⟩
             ⟨some "/repo", "/tmp/w", false, true, some ["a"], fun _ => none, true⟩
             []).trace := by
  decide

/-- C4 amended: when both branch flags are non-empty, the root lookup
succeeds and the destination does not pre-exist, the run fails with the
conflicting-branch-flags error before the worktree-registration
subprocess: the trace is the locate-root invocation alone, so
`registerWorktree` is never reached with two branch directives. -/
theorem c4_conflicting_flags (req : Req) (env : Env) (order : List String)
    (src : String)
    (htop : env.gitToplevel = some src) (hdst : env.dstExists = false)
    (hb : req.branchCreate ≠ "") (hbr : req.branchReset ≠ "") :
    (run req env order).err = some ErrKind.conflictingFlags ∧
    (run req env order).trace = [Event.subprocess ["rev-parse", "--show-toplevel"]] := by
  simp only [run, htop]
  simp [hdst, hb, hbr]

/-- C4 witness: the amended statement at concrete conflicting flags. -/
theorem c4_conflicting_flags_witness :
    (run ⟨"/tmp/w", "", "feat", "fix2", false⟩
         ⟨some "/repo", "/tmp/w", false, true, some ["a"], fun _ => none, true⟩
         ["a"]).err = some ErrKind.conflictingFlags ∧
    (run ⟨"/tmp/w", "", "feat", "fix2", false⟩
         ⟨some "/repo", "/tmp/w", false, true, some ["a"], fun _ => none, true⟩
         ["a"]).trace = [Event.subprocess ["rev-parse", "--show-toplevel"]] :=
  c4_conflicting_flags _ _ _ "/repo" rfl rfl (by decide) (by decide)

/-- C5: for the source tree `{"src", "README.md", ".git"}`, exactly two
clonefile calls are issued — one for `src`, one for `README.md` — in some
order; `.git` is never cloned. -/
theorem c5_git_excluded (req : Req) (env : Env) (order : List String)
    (src : String)
    (htop : env.gitToplevel = some src) (hdst : env.dstExists = false)
    (hfl : ¬(req.branchCreate ≠ "" ∧ req.branchReset ≠ ""))
    (hwt : env.worktreeAddOk = true)
    (hrd : env.readDir = some ["src", "README.md", ".git"]) :
    (cloneCalls (run req env order).trace).Perm ["src", "README.md"] := by
  rw [run_cloneCalls_of_fanout req env order src _ htop hdst hfl hwt hrd]
  exact (completionOrder_perm (toClone ["src", "README.md", ".git"]) order).trans (by decide)

/-- C5 witness: the concrete three-entry tree, fan-out completing with
`README.md` first. -/
theorem c5_git_excluded_witness :
    (cloneCalls (run ⟨"/tmp/w", "", "", "", false⟩
         ⟨some "/repo", "/tmp/w", false, true, some ["src", "README.md", ".git"],
          fun _ => none, true⟩
         ["README.md", "src"]).trace).Perm ["src", "README.md"] :=
  c5_git_excluded _ _ _ "/repo" rfl rfl (by decide) rfl rfl

/-- C6: when the worktree-registration subprocess fails, the run returns
the registration error, no clonefile call appears in the trace and no
per-entry clone diagnostic is printed. -/
theorem c6_registration_failure_halts (req : Req) (env : Env) (order : List String)
    (src : String)
    (htop : env.gitToplevel = some src) (hdst : env.dstExists = false)
    (hfl : ¬(req.branchCreate ≠ "" ∧ req.branchReset ≠ ""))
    (hwt : env.worktreeAddOk = false) :
    (run req env order).err = some ErrKind.worktreeAddFailed ∧
    cloneCalls (run req env order).trace = [] ∧
    ∀ n m, Event.printErrLine n m ∉ (run req env order).trace := by
  have htr : (run req env order).trace =
      [Event.subprocess ["rev-parse", "--show-toplevel"],
       Event.subprocess (worktreeArgs req src env.dstAbs)] := by
    simp only [run, htop]
    simp [hdst, hwt, if_neg hfl]
  have herr : (run req env order).err = some ErrKind.worktreeAddFailed := by
    simp only [run, htop]
    simp [hdst, hwt, if_neg hfl]
  refine ⟨herr, ?_, ?_⟩
  · rw [htr]
    rfl
  · intro n m
    rw [htr]
    simp

/-- C6 witness: a concrete run whose `git worktree add` fails. -/
theorem c6_registration_failure_halts_witness :
    (run ⟨"/tmp/w", "", "", "", false⟩
         ⟨some "/repo", "/tmp/w", false, false, some ["a", "b"], fun _ => none, true⟩
         ["a", "b"]).err = some ErrKind.worktreeAddFailed ∧
    cloneCalls (run ⟨"/tmp/w", "", "", "", false⟩
         ⟨some "/repo", "/tmp/w", false, false, some ["a", "b"], fun _ => none, true⟩
         ["a", "b"]).trace = [] ∧
    ∀ n m, Event.printErrLine n m
      ∉ (run ⟨"/tmp/w", "", "", "", false⟩
             ⟨some "/repo", "/tmp/w", false, false, some ["a", "b"], fun _ => none, true⟩
             ["a", "b"]).trace :=
  c6_registration_failure_halts _ _ _ "/repo" rfl rfl (by decide) rfl

/-- C7: the process exit status is zero exactly when every phase
succeeded and no clone failed — non-zero on any pre-flight, phase or
per-entry clone failure. -/
theorem c7_exit_zero_iff_full_success (req : Req) (env : Env) (order : List String) :
    exitStatus req env order = 0 ↔ fullSuccess req env := by
  unfold exitStatus fullSuccess
  cases htop : env.gitToplevel with
  | none => simp [run, htop]
  | some src =>
    cases hdst : env.dstExists with
    | true => simp [run, htop, hdst]
    | false =>
      by_cases hfl : req.branchCreate ≠ "" ∧ req.branchReset ≠ ""
      · simp [run, htop, hdst, hfl]
      · cases hwt : env.worktreeAddOk with
        | false => simp [run, htop, hdst, hwt, hfl]
        | true =>
          cases hrd : env.readDir with
          | none => simp [run, htop, hdst, hwt, hfl, hrd]
          | some entries =>
            cases hres : env.resetOk with
            | false => simp [run, htop, hdst, hwt, hfl, hrd, hres]
            | true =>
              have hperm := completionOrder_perm (toClone entries) order
              have hiff : failuresOf env (completionOrder (toClone entries) order) = [] ↔
                  ∀ n ∈ toClone entries, env.clonefile n = none := by
                rw [failuresOf_eq_nil_iff]
                constructor
                · intro h n hn
                  exact h n (hperm.mem_iff.mpr hn)
                · intro h n hn
                  exact h n (hperm.mem_iff.mp hn)
              rw [run_err_of_fanout req env order src entries htop hdst hfl hwt hrd hres]
              by_cases hnil : failuresOf env (completionOrder (toClone entries) order) = []
              · simp [hnil, htop, hdst, hwt, hrd, hres, hfl]
                exact hiff.mp hnil
              · have hlen : 0 < (failuresOf env (completionOrder (toClone entries) order)).length :=
                  List.length_pos.mpr hnil
                simp [htop, hdst, hwt, hrd, hres, hfl, hlen]
                have hno : ¬ ∀ n ∈ toClone entries, env.clonefile n = none :=
                  fun h => hnil (hiff.mpr h)
                push_neg at hno
                exact hno

/-- C8 counterexample: a run whose worktree registration fails reports
neither the total elapsed time nor the destination path — the claim's
"whatever its outcome" is false on the code. -/
theorem c8_counterexample :
    (run ⟨"/tmp/w", "", "", "", false⟩
         ⟨some "/repo", "/tmp/w", false, false, some ["a"], fun _ => none, true⟩
         ["a"]).err = some ErrKind.worktreeAddFailed ∧
    Event.printTotal ∉ (run ⟨"/tmp/w", "", "", "", false⟩
         ⟨some "/repo", "/tmp/w", false, false, some ["a"], fun _ => none, true⟩
         ["a"]).trace ∧
    Event.printWorktree "/tmp/w" ∉ (run ⟨"/tmp/w", "", "", "", false⟩
         ⟨some "/repo", "/tmp/w", false, false, some ["a"], fun _ => none, true⟩
         ["a"]).trace := by
  decide

/-- C8 amended: the total elapsed time and the destination path are
reported on every run that completes the index-reset phase — on full
success and on partial clone failure alike — but not on runs that fail in
an earlier phase. -/
theorem c8_report_after_reset (req : Req) (env : Env) (order : List String)
    (src : String) (entries : List String)
    (htop : env.gitToplevel = some src) (hdst : env.dstExists = false)
    (hfl : ¬(req.branchCreate ≠ "" ∧ req.branchReset ≠ ""))
    (hwt : env.worktreeAddOk = true) (hrd : env.readDir = some entries)
    (hres : env.resetOk = true) :
    Event.printTotal ∈ (run req env order).trace ∧
    Event.printWorktree env.dstAbs ∈ (run req env order).trace := by
  rw [run_trace_of_reset_ok req env order src entries htop hdst hfl hwt hrd hres]
  simp

/-- C8 witness: a concrete partial-failure run (one clone fails) that
still reports the total time and the worktree path. -/
theorem c8_report_after_reset_witness :
    Event.printTotal ∈ (run ⟨"/tmp/w", "", "", "", false⟩
         ⟨some "/repo", "/tmp/w", false, true, some ["a", "b"],
          fun n => if n == "a" then some "boom" else none, true⟩
         ["b", "a"]).trace ∧
    Event.printWorktree "/tmp/w" ∈ (run ⟨"/tmp/w", "", "", "", false⟩
         ⟨some "/repo", "/tmp/w", false, true, some ["a", "b"],
          fun n => if n == "a" then some "boom" else none, true⟩
         ["b", "a"]).trace :=
  c8_report_after_reset _ _ _ "/repo" ["a", "b"] rfl rfl (by decide) rfl rfl rfl

/-- C9: outcome aggregation is order-independent — permuting the task
completion order leaves the counter and the failure map (as a mapping:
up to permutation of its entries) unchanged, and hence the run's final
report. -/
theorem c9_aggregation_order_independent (req : Req) (env : Env) (o1 o2 : List String)
    (h : o1.Perm o2) :
    clonedOf env o1 = clonedOf env o2 ∧
    (failuresOf env o1).Perm (failuresOf env o2) ∧
    (run req env o1).clonedCount = (run req env o2).clonedCount ∧
    (run req env o1).failures.Perm (run req env o2).failures := by
  have hrun : (run req env o1).clonedCount = (run req env o2).clonedCount ∧
      (run req env o1).failures.Perm (run req env o2).failures := by
    cases htop : env.gitToplevel with
    | none => simp [run, htop]
    | some src =>
      cases hdst : env.dstExists with
      | true => simp [run, htop, hdst]
      | false =>
        by_cases hfl : req.branchCreate ≠ "" ∧ req.branchReset ≠ ""
        · simp [run, htop, hdst, hfl]
        · cases hwt : env.worktreeAddOk with
          | false => simp [run, htop, hdst, hwt, hfl]
          | true =>
            cases hrd : env.readDir with
            | none => simp [run, htop, hdst, hwt, hfl, hrd]
            | some entries =>
              have hco := completionOrder_congr (toClone entries) o1 o2
              constructor
              · rw [run_clonedCount_of_fanout req env o1 src entries htop hdst hfl hwt hrd,
                    run_clonedCount_of_fanout req env o2 src entries htop hdst hfl hwt hrd]
                exact (hco.filter _).length_eq
              · rw [run_failures_of_fanout req env o1 src entries htop hdst hfl hwt hrd,
                    run_failures_of_fanout req env o2 src entries htop hdst hfl hwt hrd]
                exact hco.filterMap _
  exact ⟨(h.filter _).length_eq, h.filterMap _, hrun.1, hrun.2⟩

/-- C9 witness: two reversed completion orders of the same two-task
fan-out with one failing entry. -/
theorem c9_aggregation_order_independent_witness :
    clonedOf ⟨some "/repo", "/tmp/w", false, true, some ["a", "b"],
        fun n => if n == "a" then some "boom" else none, true⟩ ["a", "b"]
      = clonedOf ⟨some "/repo", "/tmp/w", false, true, some ["a", "b"],
        fun n => if n == "a" then some "boom" else none, true⟩ ["b", "a"] ∧
    (failuresOf ⟨some "/repo", "/tmp/w", false, true, some ["a", "b"],
        fun n => if n == "a" then some "boom" else none, true⟩ ["a", "b"]).Perm
      (failuresOf ⟨some "/repo", "/tmp/w", false, true, some ["a", "b"],
        fun n => if n == "a" then some "boom" else none, true⟩ ["b", "a"]) ∧
    (run ⟨"/tmp/w", "", "", "", false⟩
         ⟨some "/repo", "/tmp/w", false, true, some ["a", "b"],
          fun n => if n == "a" then some "boom" else none, true⟩ ["a", "b"]).clonedCount
      = (run ⟨"/tmp/w", "", "", "", false⟩
         ⟨some "/repo", "/tmp/w", false, true, some ["a", "b"],
          fun n => if n == "a" then some "boom" else none, true⟩ ["b", "a"]).clonedCount ∧
    ((run ⟨"/tmp/w", "", "", "", false⟩
         ⟨some "/repo", "/tmp/w", false, true, some ["a", "b"],
          fun n => if n == "a" then some "boom" else none, true⟩ ["a", "b"]).failures).Perm
      ((run ⟨"/tmp/w", "", "", "", false⟩
         ⟨some "/repo", "/tmp/w", false, true, some ["a", "b"],
          fun n => if n == "a" then some "boom" else none, true⟩ ["b", "a"]).failures) :=
  c9_aggregation_order_independent _ _ ["a", "b"] ["b", "a"] (by decide)

/-- C10: after the fan-out join, every submitted entry is accounted for
exactly once: the counter plus the number of failure records equals the
number of submitted entries; an entry is a failure-map key iff its
clonefile call failed; and with duplicate-free source entries the
failure-map keys are duplicate-free. -/
theorem c10_fanout_accounting (req : Req) (env : Env) (order : List String)
    (src : String) (entries : List String)
    (htop : env.gitToplevel = some src) (hdst : env.dstExists = false)
    (hfl : ¬(req.branchCreate ≠ "" ∧ req.branchReset ≠ ""))
    (hwt : env.worktreeAddOk = true) (hrd : env.readDir = some entries) :
    (run req env order).clonedCount + (run req env order).failures.length
        = (toClone entries).length ∧
    (∀ e ∈ toClone entries,
        ((env.clonefile e).isSome = true ↔
          e ∈ (run req env order).failures.map Prod.fst)) ∧
    (entries.Nodup → ((run req env order).failures.map Prod.fst).Nodup) := by
  have hperm := completionOrder_perm (toClone entries) order
  rw [run_clonedCount_of_fanout req env order src entries htop hdst hfl hwt hrd,
      run_failures_of_fanout req env order src entries htop hdst hfl hwt hrd]
  refine ⟨?_, ?_, ?_⟩
  · rw [clonedOf_add_failures]
    exact hperm.length_eq
  · intro e he
    rw [failuresOf_keys, List.mem_filter]
    constructor
    · intro hs
      exact ⟨hperm.mem_iff.mpr he, hs⟩
    · intro hs
      exact hs.2
  · intro hnd
    rw [failuresOf_keys]
    exact (hperm.nodup_iff.mpr (hnd.filter _)).filter _

/-- C10 witness: the accounting at a concrete two-entry fan-out with one
failure. -/
theorem c10_fanout_accounting_witness :
    (run ⟨"/tmp/w", "", "", "", false⟩
         ⟨some "/repo", "/tmp/w", false, true, some ["a", "b", ".git"],
          fun n => if n == "a" then some "boom" else none, true⟩
         ["b", "a"]).clonedCount
      + (run ⟨"/tmp/w", "", "", "", false⟩
         ⟨some "/repo", "/tmp/w", false, true, some ["a", "b", ".git"],
          fun n => if n == "a" then some "boom" else none, true⟩
         ["b", "a"]).failures.length = (toClone ["a", "b", ".git"]).length ∧
    (∀ e ∈ toClone ["a", "b", ".git"],
        (((fun n => if n == "a" then some "boom" else none) e : Option String).isSome = true ↔
          e ∈ (run ⟨"/tmp/w", "", "", "", false⟩
             ⟨some "/repo", "/tmp/w", false, true, some ["a", "b", ".git"],
              fun n => if n == "a" then some "boom" else none, true⟩
             ["b", "a"]).failures.map Prod.fst)) ∧
    (["a", "b", ".git"].Nodup →
        ((run ⟨"/tmp/w", "", "", "", false⟩
             ⟨some "/repo", "/tmp/w", false, true, some ["a", "b", ".git"],
              fun n => if n == "a" then some "boom" else none, true⟩
             ["b", "a"]).failures.map Prod.fst).Nodup) :=
  c10_fanout_accounting _ _ _ "/repo" ["a", "b", ".git"] rfl rfl (by decide) rfl rfl

end GitFastWorktree
